import Mathlib

/-
Verification of offlineimap/utils/distro_utils.py.

The module has three functions:
  get_os_name                  (source lines 35-61)
  get_os_sslcertfile_searchpath (source lines 64-95)
  get_os_sslcertfile           (source lines 98-118)
and one module-level table __DEF_OS_LOCATIONS (source lines 12-32).

The embedding makes the environment explicit: the platform name, the
distribution-detection facility, the Arch marker file, the ssl
introspection fields and the filesystem are fields of a record Env.
Python exceptions are modelled with Except PyErr.  The Python statement
  location = __DEF_OS_LOCATIONS.get(os_name, [])
aliases the dict entry, so the subsequent  location += [...]  statements
mutate the module-level table whenever os_name is a key; the embedding
therefore threads the table state through get_os_sslcertfile_searchpath
explicitly and returns the updated table next to the result.
-/

/-- Kind of a resolved filesystem object: regular file, directory or
anything else (socket, fifo, device). -/
inductive FsKind : Type
  | file
  | dir
  | other
deriving DecidableEq, Repr

/-- What lstat sees at a path: nothing, a plain object of some kind, or a
symbolic link together with the kind its target chain resolves to (none
for a broken link). -/
inductive FsObject : Type
  | absent
  | direct (k : FsKind)
  | symlink (target : Option FsKind)
deriving DecidableEq, Repr

/-- Model of os.path.exists: follows symlinks, false on a broken link. -/
def pexists (fs : String → FsObject) (p : String) : Bool :=
  match fs p with
  | FsObject.absent => false
  | FsObject.direct _ => true
  | FsObject.symlink t => t.isSome

/-- Model of os.path.isfile: true when the path, links followed, is a
regular file. -/
def isfile (fs : String → FsObject) (p : String) : Bool :=
  match fs p with
  | FsObject.direct FsKind.file => true
  | FsObject.symlink (some FsKind.file) => true
  | _ => false

/-- Model of os.path.islink: true exactly when lstat sees a symlink. -/
def islink (fs : String → FsObject) (p : String) : Bool :=
  match fs p with
  | FsObject.symlink _ => true
  | _ => false

/-- The Python exceptions that can escape or arise in this module. -/
inductive PyErr : Type
  | importError
  | indexError
  | assertionError
deriving DecidableEq, Repr

/-- The ambient environment of one call, treated as a black box input:
platform.system(), the linux_distribution facility (none when both the
platform and the distro module imports fail, otherwise the first
component of its result), the Arch marker file, availability of
ssl.get_default_verify_paths, the three introspection-derived fields
(os.getenv(verify_paths.openssl_cafile_env), verify_paths.cafile,
verify_paths.openssl_cafile) and the filesystem. -/
structure Env : Type where
  system : String
  distroFacility : Option String
  archRelease : Bool
  sslAvailable : Bool
  cafile_by_envvar : Option String
  cafile : Option String
  openssl_cafile : Option String
  fs : String → FsObject

/-- Python str.lower(), computed structurally on the character list so
that concrete instances evaluate by reflexivity. -/
def pyLower (s : String) : String :=
  (s.data.map Char.toLower).asString

/-- Python str.startswith(pre), computed structurally on the character
lists. -/
def pyStartsWith (s pre : String) : Bool :=
  pre.data.isPrefixOf s.data

/-- Python str.split() with no argument: split on runs of whitespace,
dropping empty tokens.  Auxiliary recursion carrying the current token
reversed. -/
def wsTokensAux : List Char → List Char → List (List Char)
  | [], acc => if acc.isEmpty then [] else [acc.reverse]
  | c :: cs, acc =>
    if c.isWhitespace then
      if acc.isEmpty then wsTokensAux cs [] else acc.reverse :: wsTokensAux cs []
    else
      wsTokensAux cs (c :: acc)

/-- Python str.split() on a String, as a list of Strings. -/
def wsTokens (s : String) : List String :=
  (wsTokensAux s.toList []).map List.asString

/-- Embedding of get_os_name (source lines 35-61).  platform.system() is
lowercased; on a system whose lowercased name starts with linux the
distribution name is fetched (an unavailable facility is an uncaught
ImportError from the fallback import), a non-empty name contributes its
first whitespace token lowercased (a whitespace-only name makes
split()[0] raise IndexError), and the Arch marker file finally overrides
the result to linux-arch. -/
def get_os_name (env : Env) : Except PyErr String :=
  let os_name := pyLower env.system
  if pyStartsWith os_name "linux" then
    match env.distroFacility with
    | none => Except.error PyErr.importError
    | some distro_name =>
      if distro_name ≠ "" then
        match (wsTokens distro_name).head? with
        | none => Except.error PyErr.indexError
        | some tok =>
          let os_name := os_name ++ "-" ++ pyLower tok
          Except.ok (if env.archRelease then "linux-arch" else os_name)
      else
        Except.ok (if env.archRelease then "linux-arch" else os_name)
  else
    Except.ok os_name

/-- The table type: insertion-ordered key/value pairs with unique keys,
as a Python dict of lists. -/
abbrev Table : Type := List (String × List String)

/-- Python dict .get with default None, as an Option. -/
def tblLookup : Table → String → Option (List String)
  | [], _ => none
  | (k, v) :: rest, nm => if k = nm then some v else tblLookup rest nm

/-- Replacing the value stored under a key (the effect of mutating the
aliased list in place). -/
def tblUpdate : Table → String → List String → Table
  | [], _, _ => []
  | (k, v) :: rest, nm, newv =>
    if k = nm then (k, newv) :: rest else (k, v) :: tblUpdate rest nm newv

/-- Embedding of __DEF_OS_LOCATIONS (source lines 12-32). -/
def DEF_OS_LOCATIONS : Table :=
  [ ("freebsd", ["/usr/local/share/certs/ca-root-nss.crt"]),
    ("openbsd", ["/etc/ssl/cert.pem"]),
    ("dragonfly", ["/etc/ssl/cert.pem"]),
    ("darwin", ["/opt/local/share/curl/curl-ca-bundle.crt",
                "/usr/local/etc/openssl/cert.pem",
                "/opt/homebrew/etc/ca-certificates/cert.pem"]),
    ("linux-ubuntu", ["/etc/ssl/certs/ca-certificates.crt"]),
    ("linux-debian", ["/etc/ssl/certs/ca-certificates.crt"]),
    ("linux-gentoo", ["/etc/ssl/certs/ca-certificates.crt"]),
    ("linux-fedora", ["/etc/pki/tls/certs/ca-bundle.crt"]),
    ("linux-redhat", ["/etc/pki/tls/certs/ca-bundle.crt"]),
    ("linux-suse", ["/etc/ssl/ca-bundle.pem"]),
    ("linux-opensuse", ["/etc/ssl/ca-bundle.pem"]),
    ("linux-arch", ["/etc/ssl/certs/ca-certificates.crt"]) ]

/-- The singleton list an optional introspection field contributes: the
effect of one guarded  location += [value]  statement. -/
def optPath : Option String → List String
  | some v => [v]
  | none => []

/-- The zero-to-three paths the try block appends (source lines 77-90):
when ssl.get_default_verify_paths is available, the os.getenv value of
the openssl cafile environment variable (appended whenever getenv did
not return None, so also when the variable is set to the empty string),
then verify_paths.cafile, then verify_paths.openssl_cafile, each when
not None; when the introspection raises AttributeError, nothing. -/
def dynamicPaths (env : Env) : List String :=
  if env.sslAvailable then
    optPath env.cafile_by_envvar ++ optPath env.cafile ++ optPath env.openssl_cafile
  else []

/-- Embedding of get_os_sslcertfile_searchpath (source lines 64-95) as a
state transformer on the module table.  The dict .get aliases the stored
list, so when os_name is a key the appends also replace the stored
entry; when it is not, the fresh default list is extended and the table
is untouched.  An empty final list is reported as none. -/
def get_os_sslcertfile_searchpath (env : Env) (table : Table) :
    Except PyErr (Option (List String) × Table) :=
  match get_os_name env with
  | Except.error e => Except.error e
  | Except.ok os_name =>
    let location := ((tblLookup table os_name).getD []) ++ dynamicPaths env
    let table1 := if (tblLookup table os_name).isSome
                  then tblUpdate table os_name location else table
    Except.ok (if location.isEmpty then none else some location, table1)

/-- A Python runtime value handed to the probe loop: a str or anything
else (the malformed case the assert guards against). -/
inductive PyVal : Type
  | str (s : String)
  | nonStr (tag : Nat)
deriving DecidableEq, Repr

/-- The existence test of source lines 114-115: os.path.exists and
(os.path.isfile or os.path.islink). -/
def fileTest (env : Env) (p : String) : Bool :=
  pexists env.fs p && (isfile env.fs p || islink env.fs p)

/-- The for loop of get_os_sslcertfile (source lines 112-116) over
arbitrary Python values: each examined entry is first asserted to be a
str (AssertionError otherwise), then probed; the first entry passing the
test is returned and nothing after it is examined. -/
def probeLoop (env : Env) : List PyVal → Except PyErr (Option String)
  | [] => Except.ok none
  | PyVal.nonStr _ :: _ => Except.error PyErr.assertionError
  | PyVal.str f :: rest =>
    if fileTest env f then Except.ok (some f) else probeLoop env rest

/-- Embedding of get_os_sslcertfile (source lines 98-118): take the
search path (propagating its exceptions and its table mutation), return
None on an absent path, otherwise run the probe loop over the (all-str)
candidate list. -/
def get_os_sslcertfile (env : Env) (table : Table) :
    Except PyErr (Option String × Table) :=
  match get_os_sslcertfile_searchpath env table with
  | Except.error e => Except.error e
  | Except.ok (none, t1) => Except.ok (none, t1)
  | Except.ok (some location, t1) =>
    match probeLoop env (location.map PyVal.str) with
    | Except.error e => Except.error e
    | Except.ok r => Except.ok (r, t1)

/-- Order-preserving removal of duplicates keeping the first occurrence
of every element; used to state that duplicates in the candidate list do
not affect which file is resolved. -/
def dedupFirst : List String → List String
  | [] => []
  | x :: xs => x :: dedupFirst (xs.filter (fun y => y ≠ x))
termination_by l => l.length
decreasing_by
  simp only [List.length_cons]
  exact Nat.lt_succ_of_le (List.length_filter_le _ _)

/-- An empty filesystem: every path is absent. -/
def emptyFs : String → FsObject := fun _ => FsObject.absent

/-- A FreeBSD host whose ssl introspection reports a resolved cafile;
freebsd is a key of the static table. -/
def env_C1 : Env :=
  { system := "FreeBSD", distroFacility := none, archRelease := false,
    sslAvailable := true, cafile_by_envvar := none,
    cafile := some "/dyn/cert.pem", openssl_cafile := none, fs := emptyFs }

/-- The table state after the first call on env_C1: the freebsd entry
has absorbed the dynamically discovered path. -/
def tbl_C1 : Table :=
  tblUpdate DEF_OS_LOCATIONS "freebsd"
    ["/usr/local/share/certs/ca-root-nss.crt", "/dyn/cert.pem"]

/-- A host whose OS is not a key of the static table, with two existing
candidate files reported by the introspection. -/
def fs_C3w : String → FsObject := fun p =>
  if p = "/present/a" then FsObject.direct FsKind.file
  else if p = "/present/b" then FsObject.direct FsKind.file
  else FsObject.absent

def env_C3w : Env :=
  { system := "Plan9", distroFacility := none, archRelease := false,
    sslAvailable := true, cafile_by_envvar := none,
    cafile := some "/present/a", openssl_cafile := some "/present/b", fs := fs_C3w }

/-- A filesystem where the first candidate is a directory and the second
a regular file. -/
def fs_C4w : String → FsObject := fun p =>
  if p = "/somedir" then FsObject.direct FsKind.dir
  else if p = "/bundle.pem" then FsObject.direct FsKind.file
  else FsObject.absent

def env_C4w : Env :=
  { system := "Plan9", distroFacility := none, archRelease := false,
    sslAvailable := true, cafile_by_envvar := none,
    cafile := some "/somedir", openssl_cafile := some "/bundle.pem", fs := fs_C4w }

/-- A host where the openssl cafile environment variable is set to the
empty string and nothing else is available. -/
def env_C5x : Env :=
  { system := "Plan9", distroFacility := none, archRelease := false,
    sslAvailable := true, cafile_by_envvar := some "",
    cafile := none, openssl_cafile := none, fs := emptyFs }

/-- A Linux host on which both distribution-detection imports fail. -/
def env_C6x : Env :=
  { system := "Linux", distroFacility := none, archRelease := false,
    sslAvailable := false, cafile_by_envvar := none,
    cafile := none, openssl_cafile := none, fs := emptyFs }

/-- A filesystem with one existing regular file, for the probe loop. -/
def fs_C7x : String → FsObject := fun p =>
  if p = "/etc/hosts" then FsObject.direct FsKind.file else FsObject.absent

def env_C7x : Env :=
  { system := "Plan9", distroFacility := none, archRelease := false,
    sslAvailable := false, cafile_by_envvar := none,
    cafile := none, openssl_cafile := none, fs := fs_C7x }

/-- A host with no static entry and no introspection at all: the
combined candidate list is empty. -/
def env_C8w : Env :=
  { system := "Plan9", distroFacility := none, archRelease := false,
    sslAvailable := false, cafile_by_envvar := none,
    cafile := none, openssl_cafile := none, fs := emptyFs }

/-- A Linux host with the Arch marker present whose reported
distribution name is a single space: truthy, yet without any
whitespace-delimited token. -/
def env_C9x : Env :=
  { system := "Linux", distroFacility := some " ", archRelease := true,
    sslAvailable := false, cafile_by_envvar := none,
    cafile := none, openssl_cafile := none, fs := emptyFs }

/-- A Linux host with the Arch marker present and a well-formed reported
distribution name. -/
def env_C9w : Env :=
  { system := "Linux", distroFacility := some "Arch Linux", archRelease := true,
    sslAvailable := false, cafile_by_envvar := none,
    cafile := none, openssl_cafile := none, fs := emptyFs }

/-- A host whose introspection reports the same string for the resolved
and the hardcoded cafile. -/
def env_C10w : Env :=
  { system := "Plan9", distroFacility := none, archRelease := false,
    sslAvailable := true, cafile_by_envvar := none,
    cafile := some "/same/cert.pem", openssl_cafile := some "/same/cert.pem",
    fs := emptyFs }

/-- An OpenBSD host whose introspection resolves the very path already
stored in the static table under openbsd. -/
def env_C10b : Env :=
  { system := "OpenBSD", distroFacility := none, archRelease := false,
    sslAvailable := true, cafile_by_envvar := none,
    cafile := some "/etc/ssl/cert.pem", openssl_cafile := none,
    fs := emptyFs }

/-- A FreeBSD host with one dynamically discovered path, for probing the
search path against the pristine static table. -/
def env_C2w : Env :=
  { system := "FreeBSD", distroFacility := none, archRelease := false,
    sslAvailable := true, cafile_by_envvar := none,
    cafile := some "/dyn/cert.pem", openssl_cafile := none, fs := emptyFs }

/-- A non-empty list is not isEmpty. -/
theorem isEmpty_false_of_ne_nil (l : List String) (h : l ≠ []) :
    l.isEmpty = false := by
  cases l with
  | nil => exact absurd rfl h
  | cons a t => rfl

/-- Unfolding get_os_sslcertfile_searchpath on a successfully computed
OS name. -/
theorem searchpath_ok (env : Env) (table : Table) (nm : String)
    (hn : get_os_name env = Except.ok nm) :
    get_os_sslcertfile_searchpath env table =
      Except.ok
        (if ((tblLookup table nm).getD [] ++ dynamicPaths env).isEmpty then none
         else some ((tblLookup table nm).getD [] ++ dynamicPaths env),
         if (tblLookup table nm).isSome
         then tblUpdate table nm ((tblLookup table nm).getD [] ++ dynamicPaths env)
         else table) := by
  unfold get_os_sslcertfile_searchpath
  rw [hn]

/-- A successful table lookup returns a stored pair. -/
theorem tblLookup_mem (table : Table) (nm : String) (e : List String)
    (h : tblLookup table nm = some e) : (nm, e) ∈ table := by
  induction table with
  | nil => simp [tblLookup] at h
  | cons kv rest ih =>
    obtain ⟨k, v⟩ := kv
    by_cases hk : k = nm
    · subst hk
      simp [tblLookup] at h
      subst h
      exact List.mem_cons_self _ _
    · simp [tblLookup, hk] at h
      exact List.mem_cons_of_mem _ (ih h)

/-- Every list stored in the static table is non-empty. -/
theorem DEF_OS_LOCATIONS_vals_ne_nil :
    ∀ kv ∈ DEF_OS_LOCATIONS, kv.2 ≠ ([] : List String) := by decide

/-- A successful find? splits the list at the first hit: everything
before it fails the predicate. -/
theorem find?_split (p : String → Bool) (l : List String) (a : String)
    (h : List.find? p l = some a) :
    ∃ pre post, l = pre ++ a :: post ∧ p a = true ∧ ∀ q ∈ pre, p q = false := by
  induction l with
  | nil => simp [List.find?] at h
  | cons x xs ih =>
    rcases hx : p x with _ | _
    · rw [List.find?_cons_of_neg _ (by simp [hx])] at h
      obtain ⟨pre, post, hsplit, hpa, hpre⟩ := ih h
      refine ⟨x :: pre, post, by simp [hsplit], hpa, ?_⟩
      intro q hq
      rcases List.mem_cons.mp hq with rfl | hq
      · exact hx
      · exact hpre q hq
    · rw [List.find?_cons_of_pos _ hx] at h
      obtain rfl := Option.some.inj h
      exact ⟨[], xs, rfl, hx, by simp⟩

/-- On an all-str candidate list the probe loop never faults and agrees
with first-match search. -/
theorem probeLoop_map_str (env : Env) (l : List String) :
    probeLoop env (l.map PyVal.str) = Except.ok (l.find? (fileTest env)) := by
  induction l with
  | nil => rfl
  | cons x xs ih =>
    rcases hx : fileTest env x with _ | _
    · simp [probeLoop, hx, List.find?_cons, ih]
    · simp [probeLoop, hx, List.find?_cons]

/-- A successful return of get_os_sslcertfile is the first-match search
over some candidate list the search path produced. -/
theorem sslcertfile_ok_some (env : Env) (table : Table) (p : String) (t1 : Table)
    (h : get_os_sslcertfile env table = Except.ok (some p, t1)) :
    ∃ l, get_os_sslcertfile_searchpath env table = Except.ok (some l, t1) ∧
      l.find? (fileTest env) = some p := by
  unfold get_os_sslcertfile at h
  rcases hsp : get_os_sslcertfile_searchpath env table with e | r
  · rw [hsp] at h
    simp at h
  · obtain ⟨ro, t⟩ := r
    rcases ro with _ | loc
    · rw [hsp] at h
      simp at h
    · rw [hsp] at h
      dsimp only at h
      rw [probeLoop_map_str] at h
      dsimp only at h
      have h1 := Except.ok.inj h
      have h2 : List.find? (fileTest env) loc = some p := congrArg Prod.fst h1
      have h3 : t = t1 := congrArg Prod.snd h1
      subst h3
      exact ⟨loc, rfl, h2⟩


/-- Filtering out an element the predicate rejects does not change the
first match. -/
theorem find?_filter_other (p : String → Bool) (x : String) (hx : p x = false) :
    ∀ l : List String,
      List.find? p (l.filter (fun y => y ≠ x)) = List.find? p l := by
  intro l
  induction l with
  | nil => rfl
  | cons y ys ih =>
    by_cases hyx : y = x
    · subst hyx
      simpa [List.filter, List.find?_cons, hx] using ih
    · rcases hy : p y with _ | _
      · simpa [List.filter, hyx, List.find?_cons, hy] using ih
      · simp [List.filter, hyx, List.find?_cons, hy]

/-- First-match search is invariant under first-occurrence
deduplication (length-bounded induction). -/
theorem find?_dedupFirst_aux (p : String → Bool) :
    ∀ n (l : List String), l.length ≤ n →
      List.find? p (dedupFirst l) = List.find? p l := by
  intro n
  induction n with
  | zero =>
    intro l hl
    obtain rfl := List.eq_nil_of_length_eq_zero (Nat.le_zero.mp hl)
    rw [dedupFirst]
  | succ n ih =>
    intro l hl
    cases l with
    | nil => rw [dedupFirst]
    | cons x xs =>
      rw [dedupFirst]
      rcases hx : p x with _ | _
      · rw [List.find?_cons_of_neg _ (by simp [hx]),
          List.find?_cons_of_neg _ (by simp [hx])]
        rw [ih (xs.filter (fun y => y ≠ x))
          (le_trans (List.length_filter_le _ _) (Nat.succ_le_succ_iff.mp hl))]
        exact find?_filter_other p x hx xs
      · rw [List.find?_cons_of_pos _ hx, List.find?_cons_of_pos _ hx]

/-- C1: the claim states that the OS-to-paths table is never mutated at
runtime and that repeated calls with unchanged inputs return the same
list.  The code violates this: dict .get returns the stored list itself,
and the  location += [...]  statements extend that list in place, so a
call whose OS is a table key and whose introspection reports any path
grows the module table.  On a FreeBSD host whose introspection reports a
resolved cafile, the first call already leaves the table changed, and an
immediately repeated call with identical inputs returns a longer list
with the dynamic path duplicated. -/
theorem C1_table_mutation :
    get_os_sslcertfile_searchpath env_C1 DEF_OS_LOCATIONS =
      Except.ok (some ["/usr/local/share/certs/ca-root-nss.crt", "/dyn/cert.pem"],
        tbl_C1) ∧
    tbl_C1 ≠ DEF_OS_LOCATIONS ∧
    get_os_sslcertfile_searchpath env_C1 tbl_C1 =
      Except.ok
        (some ["/usr/local/share/certs/ca-root-nss.crt", "/dyn/cert.pem",
               "/dyn/cert.pem"],
         tblUpdate tbl_C1 "freebsd"
           ["/usr/local/share/certs/ca-root-nss.crt", "/dyn/cert.pem",
            "/dyn/cert.pem"]) :=
  ⟨rfl, by decide, rfl⟩

/-- C2: for an OS identity that is a key of the pristine static table,
the returned search path is exactly the static entries in table order
followed by the dynamically discovered paths in the fixed priority
order: the environment-variable-derived path, then the resolved default
cafile, then the hardcoded default cafile, each present only when its
introspection field applies (and none of them when the introspection is
unavailable). -/
theorem C2_static_then_dynamic (env : Env) (nm : String) (entry : List String)
    (hn : get_os_name env = Except.ok nm)
    (he : tblLookup DEF_OS_LOCATIONS nm = some entry) :
    get_os_sslcertfile_searchpath env DEF_OS_LOCATIONS =
      Except.ok
        (some (entry ++
           (if env.sslAvailable then
              optPath env.cafile_by_envvar ++ optPath env.cafile ++
                optPath env.openssl_cafile
            else [])),
         tblUpdate DEF_OS_LOCATIONS nm (entry ++
           (if env.sslAvailable then
              optPath env.cafile_by_envvar ++ optPath env.cafile ++
                optPath env.openssl_cafile
            else []))) := by
  have hmem := tblLookup_mem DEF_OS_LOCATIONS nm entry he
  have hne : entry ≠ [] := DEF_OS_LOCATIONS_vals_ne_nil (nm, entry) hmem
  have hd : (if env.sslAvailable then
      optPath env.cafile_by_envvar ++ optPath env.cafile ++
        optPath env.openssl_cafile
    else []) = dynamicPaths env := rfl
  rw [hd, searchpath_ok env DEF_OS_LOCATIONS nm hn, he]
  have hie : (entry ++ dynamicPaths env).isEmpty = false :=
    isEmpty_false_of_ne_nil _ (fun hc => hne (List.append_eq_nil.mp hc).1)
  simp [hie]

/-- C2 witness: concrete FreeBSD host with an available introspection
reporting a resolved cafile. -/
theorem C2_witness :
    get_os_name env_C2w = Except.ok "freebsd" ∧
    tblLookup DEF_OS_LOCATIONS "freebsd" =
      some ["/usr/local/share/certs/ca-root-nss.crt"] ∧
    get_os_sslcertfile_searchpath env_C2w DEF_OS_LOCATIONS =
      Except.ok
        (some (["/usr/local/share/certs/ca-root-nss.crt"] ++
           (if env_C2w.sslAvailable then
              optPath env_C2w.cafile_by_envvar ++ optPath env_C2w.cafile ++
                optPath env_C2w.openssl_cafile
            else [])),
         tblUpdate DEF_OS_LOCATIONS "freebsd"
           (["/usr/local/share/certs/ca-root-nss.crt"] ++
            (if env_C2w.sslAvailable then
               optPath env_C2w.cafile_by_envvar ++ optPath env_C2w.cafile ++
                 optPath env_C2w.openssl_cafile
             else []))) :=
  ⟨rfl, rfl,
   C2_static_then_dynamic env_C2w "freebsd"
     ["/usr/local/share/certs/ca-root-nss.crt"] rfl rfl⟩

/-- C3: whenever get_os_sslcertfile returns a path, that path sits in
the candidate list returned by the search-path function at the position
of the first entry passing the existence test: every candidate before it
fails the test, so no later candidate can be preferred. -/
theorem C3_first_match (env : Env) (table : Table) (p : String) (t1 : Table)
    (h : get_os_sslcertfile env table = Except.ok (some p, t1)) :
    ∃ l pre post,
      get_os_sslcertfile_searchpath env table = Except.ok (some l, t1) ∧
      l = pre ++ p :: post ∧ fileTest env p = true ∧
      ∀ q ∈ pre, fileTest env q = false := by
  obtain ⟨l, hsp, hf⟩ := sslcertfile_ok_some env table p t1 h
  obtain ⟨pre, post, hsplit, hp, hpre⟩ := find?_split (fileTest env) l p hf
  exact ⟨l, pre, post, hsp, hsplit, hp, hpre⟩

/-- C3 witness: a host with two existing candidates; the first one is
resolved. -/
theorem C3_witness :
    ∃ l pre post,
      get_os_sslcertfile_searchpath env_C3w DEF_OS_LOCATIONS =
        Except.ok (some l, DEF_OS_LOCATIONS) ∧
      l = pre ++ "/present/a" :: post ∧ fileTest env_C3w "/present/a" = true ∧
      ∀ q ∈ pre, fileTest env_C3w q = false :=
  C3_first_match env_C3w DEF_OS_LOCATIONS "/present/a" DEF_OS_LOCATIONS rfl

/-- C4: a returned path is never a plain directory: the existence test
demands os.path.isfile or os.path.islink, so the object lstat sees at a
returned path is a regular file or a symbolic link, never a directory
(nor any other special type). -/
theorem C4_never_directory (env : Env) (table : Table) (p : String) (t1 : Table)
    (h : get_os_sslcertfile env table = Except.ok (some p, t1)) :
    env.fs p ≠ FsObject.direct FsKind.dir ∧
      (isfile env.fs p = true ∨ islink env.fs p = true) := by
  obtain ⟨l, hsp, hf⟩ := sslcertfile_ok_some env table p t1 h
  have hp : fileTest env p = true := List.find?_some hf
  unfold fileTest at hp
  obtain ⟨hex, hio⟩ := Bool.and_eq_true_iff.mp hp
  have hor := Bool.or_eq_true_iff.mp hio
  refine ⟨?_, hor⟩
  intro hdir
  have h1 : isfile env.fs p = false := by simp [isfile, hdir]
  have h2 : islink env.fs p = false := by simp [islink, hdir]
  rcases hor with h3 | h3
  · rw [h1] at h3; exact Bool.false_ne_true h3
  · rw [h2] at h3; exact Bool.false_ne_true h3

/-- C4 witness: the first candidate is an existing directory and is
skipped; the regular file after it is returned. -/
theorem C4_witness :
    env_C4w.fs "/bundle.pem" ≠ FsObject.direct FsKind.dir ∧
      (isfile env_C4w.fs "/bundle.pem" = true ∨
        islink env_C4w.fs "/bundle.pem" = true) :=
  C4_never_directory env_C4w DEF_OS_LOCATIONS "/bundle.pem" DEF_OS_LOCATIONS rfl

/-- C5 counterexample: the claim states that when the environment
variable is set to the empty string no entry is appended for it.  In the
code os.getenv then returns the empty string, which is not None, so the
empty string is appended: on a host with no static entry and no other
introspection field the search path comes back as the one-element list
holding the empty string instead of the absent value the claim would
force. -/
theorem C5_counterexample :
    env_C5x.cafile_by_envvar = some "" ∧
    get_os_sslcertfile_searchpath env_C5x DEF_OS_LOCATIONS =
      Except.ok (some [""], DEF_OS_LOCATIONS) :=
  ⟨rfl, rfl⟩

/-- C5 amended: the environment-variable-derived path is appended if and
only if os.getenv returned a value, that is, whenever the variable is
set, including when its value is the empty string; a set variable always
contributes its value to the returned list. -/
theorem C5_envvar_iff_set (env : Env) (h : env.sslAvailable = true) :
    dynamicPaths env =
      optPath env.cafile_by_envvar ++ optPath env.cafile ++
        optPath env.openssl_cafile ∧
    ∀ v, env.cafile_by_envvar = some v →
      ∀ nm table, get_os_name env = Except.ok nm →
        ∃ l t1, get_os_sslcertfile_searchpath env table = Except.ok (some l, t1) ∧
          v ∈ l := by
  constructor
  · simp [dynamicPaths, h]
  · intro v hv nm table hn
    have hvmem : v ∈ (tblLookup table nm).getD [] ++ dynamicPaths env := by
      apply List.mem_append_right
      simp [dynamicPaths, h, hv, optPath]
    have hie : ((tblLookup table nm).getD [] ++ dynamicPaths env).isEmpty = false := by
      apply isEmpty_false_of_ne_nil
      intro hc
      rw [hc] at hvmem
      exact List.not_mem_nil v hvmem
    refine ⟨(tblLookup table nm).getD [] ++ dynamicPaths env,
      (if (tblLookup table nm).isSome
       then tblUpdate table nm ((tblLookup table nm).getD [] ++ dynamicPaths env)
       else table), ?_, hvmem⟩
    rw [searchpath_ok env table nm hn, hie]
    simp

/-- C5 witness: the empty-string value of the set variable lands in the
returned list. -/
theorem C5_witness :
    env_C5x.sslAvailable = true ∧
    ∃ l t1, get_os_sslcertfile_searchpath env_C5x DEF_OS_LOCATIONS =
      Except.ok (some l, t1) ∧ "" ∈ l :=
  ⟨rfl, (C5_envvar_iff_set env_C5x rfl).2 "" rfl "plan9" DEF_OS_LOCATIONS rfl⟩

/-- C6 counterexample: the claim states every distribution-detection
failure degrades silently to the bare OS name.  When both the platform
and the distro imports fail (the primary facility is gone and the
fallback module is not installed), the second import raises an uncaught
ImportError instead of returning the bare name linux. -/
theorem C6_counterexample :
    pyStartsWith (pyLower env_C6x.system) "linux" = true ∧
    get_os_name env_C6x = Except.error PyErr.importError :=
  ⟨rfl, rfl⟩

/-- C6 amended: on Linux the failures of get_os_name are exactly these
two: an ImportError when no distribution-detection facility is
importable, and an IndexError when the reported name is non-empty yet
holds no whitespace-delimited token; an empty reported name does degrade
silently to the bare lowercased OS name (or the Arch override). -/
theorem C6_failure_characterization (env : Env)
    (h : pyStartsWith (pyLower env.system) "linux" = true) :
    (get_os_name env = Except.error PyErr.importError ↔
       env.distroFacility = none) ∧
    (get_os_name env = Except.error PyErr.indexError ↔
       ∃ d, env.distroFacility = some d ∧ d ≠ "" ∧ wsTokens d = []) ∧
    (env.distroFacility = some "" →
       get_os_name env =
         Except.ok (if env.archRelease then "linux-arch"
                    else pyLower env.system)) := by
  cases hd : env.distroFacility with
  | none =>
    refine ⟨by simp [get_os_name, h, hd], ?_, by simp [hd]⟩
    simp [get_os_name, h, hd]
  | some d =>
    by_cases hde : d = ""
    · subst hde
      refine ⟨by simp [get_os_name, h, hd], ?_, ?_⟩
      · simp only [get_os_name, h, if_true, hd]
        constructor
        · intro hc
          simp at hc
        · rintro ⟨d2, hd2, hne, -⟩
          exact absurd (Option.some.inj hd2).symm hne
      · intro _
        simp [get_os_name, h, hd]
    · cases ht : (wsTokens d).head? with
      | none =>
        have htnil : wsTokens d = [] := List.head?_eq_none_iff.mp ht
        refine ⟨?_, ?_, ?_⟩
        · simp [get_os_name, h, hd, hde, ht]
        · simp only [get_os_name, h, if_true, hd, hde, ht]
          constructor
          · intro _
            exact ⟨d, rfl, hde, htnil⟩
          · intro _
            simp [hde, ht]
        · intro hc
          exact absurd (Option.some.inj (hd ▸ hc)) hde
      | some tok =>
        refine ⟨?_, ?_, ?_⟩
        · simp [get_os_name, h, hd, hde, ht]
        · simp only [get_os_name, h, if_true, hd, hde, ht]
          constructor
          · intro hc
            simp [hde, ht] at hc
          · rintro ⟨d2, hd2, -, htnil⟩
            obtain rfl := Option.some.inj hd2
            rw [htnil] at ht
            simp at ht
        · intro hc
          exact absurd (Option.some.inj (hd ▸ hc)) hde

/-- C6 witness: the characterization applied to the host where both
imports fail. -/
theorem C6_witness :
    pyStartsWith (pyLower env_C6x.system) "linux" = true ∧
    (get_os_name env_C6x = Except.error PyErr.importError ↔
       env_C6x.distroFacility = none) :=
  ⟨rfl, (C6_failure_characterization env_C6x rfl).1⟩

/-- C7 counterexample: the claim states that a candidate list holding a
malformed (non-string) entry makes the call fail with an assertion
failure.  The assert runs only on entries the loop examines: with an
existing file before the malformed entry, the loop returns that file
normally and never reaches the assert. -/
theorem C7_counterexample :
    probeLoop env_C7x [PyVal.str "/etc/hosts", PyVal.nonStr 0] =
      Except.ok (some "/etc/hosts") :=
  rfl

/-- C7 amended: the probe faults with an assertion failure exactly when
a non-string entry occurs in the list before any candidate passing the
existence test; entries after the first match are never examined, so a
malformed entry there does not fault (and the assert checks only that
the entry is a string, not that it is non-empty). -/
theorem C7_assert_iff_examined (env : Env) (l : List PyVal) :
    probeLoop env l = Except.error PyErr.assertionError ↔
      ∃ pre k rest, l = pre ++ PyVal.nonStr k :: rest ∧
        ∀ v ∈ pre, ∃ s, v = PyVal.str s ∧ fileTest env s = false := by
  induction l with
  | nil =>
    constructor
    · intro hc
      simp [probeLoop] at hc
    · rintro ⟨pre, k, rest, hsplit, -⟩
      cases pre <;> simp at hsplit
  | cons v vs ih =>
    cases v with
    | nonStr k =>
      constructor
      · intro _
        exact ⟨[], k, vs, rfl, by simp⟩
      · intro _
        rfl
    | str f =>
      rcases hf : fileTest env f with _ | _
      · rw [show probeLoop env (PyVal.str f :: vs) = probeLoop env vs by
          simp [probeLoop, hf]]
        rw [ih]
        constructor
        · rintro ⟨pre, k, rest, hsplit, hpre⟩
          refine ⟨PyVal.str f :: pre, k, rest, by simp [hsplit], ?_⟩
          intro v hv
          rcases List.mem_cons.mp hv with rfl | hv2
          · exact ⟨f, rfl, hf⟩
          · exact hpre v hv2
        · rintro ⟨pre, k, rest, hsplit, hpre⟩
          cases pre with
          | nil => simp at hsplit
          | cons p0 pre2 =>
            rw [List.cons_append] at hsplit
            obtain ⟨h0, h1⟩ := List.cons.inj hsplit
            refine ⟨pre2, k, rest, h1, ?_⟩
            intro v hv
            exact hpre v (List.mem_cons_of_mem _ hv)
      · rw [show probeLoop env (PyVal.str f :: vs) = Except.ok (some f) by
          simp [probeLoop, hf]]
        constructor
        · intro hc
          simp at hc
        · rintro ⟨pre, k, rest, hsplit, hpre⟩
          cases pre with
          | nil => simp at hsplit
          | cons p0 pre2 =>
            rw [List.cons_append] at hsplit
            obtain ⟨h0, h1⟩ := List.cons.inj hsplit
            obtain ⟨s, hs, hts⟩ := hpre p0 (List.mem_cons_self _ _)
            rw [hs] at h0
            have hfs : f = s := PyVal.str.inj h0
            rw [hfs, hts] at hf
            exact absurd hf Bool.false_ne_true

/-- C7 witness: the characterization evaluated at a one-element
malformed list, where the assert does fire. -/
theorem C7_witness :
    probeLoop env_C7x [PyVal.nonStr 3] = Except.error PyErr.assertionError ↔
      ∃ pre k rest, [PyVal.nonStr 3] = pre ++ PyVal.nonStr k :: rest ∧
        ∀ v ∈ pre, ∃ s, v = PyVal.str s ∧ fileTest env_C7x s = false :=
  C7_assert_iff_examined env_C7x [PyVal.nonStr 3]

/-- C8: when the combined candidate list (static entries plus dynamic
paths) is empty the search-path function returns the absent value, never
the empty list; when it is non-empty it returns exactly that ordered
list. -/
theorem C8_empty_is_none (env : Env) (table : Table) (nm : String)
    (hn : get_os_name env = Except.ok nm) :
    ((tblLookup table nm).getD [] ++ dynamicPaths env = [] →
       ∃ t1, get_os_sslcertfile_searchpath env table = Except.ok (none, t1)) ∧
    (∀ loc, loc = (tblLookup table nm).getD [] ++ dynamicPaths env → loc ≠ [] →
       ∃ t1, get_os_sslcertfile_searchpath env table = Except.ok (some loc, t1)) ∧
    (∀ t1, get_os_sslcertfile_searchpath env table ≠ Except.ok (some [], t1)) := by
  refine ⟨?_, ?_, ?_⟩
  · intro he
    refine ⟨(if (tblLookup table nm).isSome
             then tblUpdate table nm ((tblLookup table nm).getD [] ++ dynamicPaths env)
             else table), ?_⟩
    rw [searchpath_ok env table nm hn, he]
    simp
  · intro loc hl hne
    subst hl
    refine ⟨(if (tblLookup table nm).isSome
             then tblUpdate table nm ((tblLookup table nm).getD [] ++ dynamicPaths env)
             else table), ?_⟩
    rw [searchpath_ok env table nm hn,
      isEmpty_false_of_ne_nil _ hne]
    simp
  · intro t1 hcontra
    rw [searchpath_ok env table nm hn] at hcontra
    by_cases hl : (tblLookup table nm).getD [] ++ dynamicPaths env = []
    · rw [hl] at hcontra
      simp at hcontra
    · rw [isEmpty_false_of_ne_nil _ hl] at hcontra
      simp only [if_false, Bool.false_eq_true] at hcontra
      have hfst := congrArg Prod.fst (Except.ok.inj hcontra)
      exact hl (Option.some.inj hfst)

/-- C8 witness: an OS without a static entry and without introspection
yields the absent value. -/
theorem C8_witness :
    get_os_name env_C8w = Except.ok "plan9" ∧
    tblLookup DEF_OS_LOCATIONS "plan9" = none ∧
    dynamicPaths env_C8w = [] ∧
    ∃ t1, get_os_sslcertfile_searchpath env_C8w DEF_OS_LOCATIONS =
      Except.ok (none, t1) :=
  ⟨rfl, rfl, rfl, (C8_empty_is_none env_C8w DEF_OS_LOCATIONS "plan9" rfl).1 rfl⟩

/-- C9 counterexample: the claim states that on Linux with the Arch
marker present get_os_name returns linux-arch regardless of the reported
distribution name.  A reported name consisting of one space is truthy in
Python yet split() extracts no token from it, so split()[0] raises an
IndexError before the Arch override is reached. -/
theorem C9_counterexample :
    env_C9x.archRelease = true ∧
    get_os_name env_C9x = Except.error PyErr.indexError :=
  ⟨rfl, rfl⟩

/-- C9 amended: on Linux with the Arch marker file present, get_os_name
returns exactly linux-arch whenever a distribution-detection facility is
importable and the name it reports is either empty or has a
whitespace-delimited token; an unavailable facility raises ImportError
and a non-empty whitespace-only name raises IndexError instead. -/
theorem C9_arch_override (env : Env) (d : String)
    (hl : pyStartsWith (pyLower env.system) "linux" = true)
    (ha : env.archRelease = true)
    (hd : env.distroFacility = some d)
    (ht : d = "" ∨ wsTokens d ≠ []) :
    get_os_name env = Except.ok "linux-arch" := by
  by_cases hde : d = ""
  · subst hde
    simp [get_os_name, hl, hd, ha]
  · have htk : wsTokens d ≠ [] := ht.resolve_left hde
    cases htok : (wsTokens d).head? with
    | none => exact absurd (List.head?_eq_none_iff.mp htok) htk
    | some tok => simp [get_os_name, hl, hd, hde, htok, ha]

/-- C9 witness: Arch marker present with a well-formed reported name. -/
theorem C9_witness : get_os_name env_C9w = Except.ok "linux-arch" :=
  C9_arch_override env_C9w "Arch Linux" rfl rfl rfl (Or.inr (by decide))

/-- C10: no deduplication is performed: when the resolved and hardcoded
cafiles coincide the returned list counts that path at least twice; when
a dynamically discovered path equals a static-table entry for the OS the
returned list also counts it at least twice; and duplicates cannot
change what get_os_sslcertfile resolves, because first-match search is
invariant under first-occurrence deduplication of the candidate list. -/
theorem C10_no_dedup :
    (∀ env table nm s l t1,
       get_os_name env = Except.ok nm → env.sslAvailable = true →
       env.cafile = some s → env.openssl_cafile = some s →
       get_os_sslcertfile_searchpath env table = Except.ok (some l, t1) →
       2 ≤ List.count s l) ∧
    (∀ env table nm entry s l t1,
       get_os_name env = Except.ok nm →
       tblLookup table nm = some entry →
       s ∈ entry → s ∈ dynamicPaths env →
       get_os_sslcertfile_searchpath env table = Except.ok (some l, t1) →
       2 ≤ List.count s l) ∧
    (∀ env l, List.find? (fileTest env) (dedupFirst l) =
       List.find? (fileTest env) l) := by
  refine ⟨?_, ?_, ?_⟩
  · intro env table nm s l t1 hn hs hc ho hsp
    rw [searchpath_ok env table nm hn] at hsp
    by_cases he : (tblLookup table nm).getD [] ++ dynamicPaths env = []
    · rw [he] at hsp
      simp at hsp
    · rw [isEmpty_false_of_ne_nil _ he] at hsp
      simp at hsp
      obtain ⟨hfst, -⟩ := hsp
      have hd : dynamicPaths env = optPath env.cafile_by_envvar ++ [s] ++ [s] := by
        simp [dynamicPaths, hs, hc, ho, optPath]
      have hcnt : List.count s ((tblLookup table nm).getD [] ++ dynamicPaths env) =
          List.count s ((tblLookup table nm).getD []) +
            (List.count s (optPath env.cafile_by_envvar) + 2) := by
        rw [List.count_append, hd, List.count_append, List.count_append]
        simp [List.count_cons_self]
      rw [← hfst, hcnt]
      omega
  · intro env table nm entry s l t1 hn he hse hsd hsp
    rw [searchpath_ok env table nm hn, he] at hsp
    simp only [Option.getD_some] at hsp
    have hsmem : s ∈ entry ++ dynamicPaths env := List.mem_append_left _ hse
    have hne : entry ++ dynamicPaths env ≠ [] := by
      intro hc
      rw [hc] at hsmem
      exact List.not_mem_nil s hsmem
    rw [isEmpty_false_of_ne_nil _ hne] at hsp
    simp at hsp
    obtain ⟨hfst, -⟩ := hsp
    rw [← hfst, List.count_append]
    have h1 : 0 < List.count s entry := List.count_pos_iff.mpr hse
    have h2 : 0 < List.count s (dynamicPaths env) := List.count_pos_iff.mpr hsd
    omega
  · intro env l
    exact find?_dedupFirst_aux (fileTest env) l.length l le_rfl

/-- C10 witness: the shared resolved-equals-hardcoded path appears twice
in one produced list, the dynamic path equal to the openbsd static entry
appears twice in another, and first-match search over a deduplicated
concrete list agrees with the original. -/
theorem C10_witness :
    2 ≤ List.count "/same/cert.pem" ["/same/cert.pem", "/same/cert.pem"] ∧
    2 ≤ List.count "/etc/ssl/cert.pem" ["/etc/ssl/cert.pem", "/etc/ssl/cert.pem"] ∧
    List.find? (fileTest env_C10w) (dedupFirst ["/same/cert.pem", "/same/cert.pem"]) =
      List.find? (fileTest env_C10w) ["/same/cert.pem", "/same/cert.pem"] :=
  ⟨C10_no_dedup.1 env_C10w DEF_OS_LOCATIONS "plan9" "/same/cert.pem"
     ["/same/cert.pem", "/same/cert.pem"] DEF_OS_LOCATIONS rfl rfl rfl rfl rfl,
   C10_no_dedup.2.1 env_C10b DEF_OS_LOCATIONS "openbsd" ["/etc/ssl/cert.pem"]
     "/etc/ssl/cert.pem" ["/etc/ssl/cert.pem", "/etc/ssl/cert.pem"]
     (tblUpdate DEF_OS_LOCATIONS "openbsd" ["/etc/ssl/cert.pem", "/etc/ssl/cert.pem"])
     rfl rfl (by decide) (by decide) rfl,
   C10_no_dedup.2.2 env_C10w ["/same/cert.pem", "/same/cert.pem"]⟩
